import Mathlib

/-!
# Verification of the yoforex backend's chart-analysis pipeline

Shallow embedding of the code paths behind the Chart Gate
(`utils/image_check.py`), the Analysis Requestor (`utils/gemini_helper.py`
and the older standalone variant in `app.py`), the analyze-chart route
handlers (`routers/scalp.py`, `routers/swing.py`, `app.py`), the history
persistence column type (`models.JSONEncodedDict`), and the background
alert poller (`schemas/swing.py`).

External libraries are modelled as follows:

* `json.dumps` / `json.loads` (Python stdlib, used by `JSONEncodedDict`
  and to parse the upstream reply) are modelled over an inductive `Json`
  value type, with numbers as integers and objects as ordered key/value
  lists (Python dicts preserve insertion order and the analysis blobs in
  this repository contain only strings, integers, booleans, nulls, arrays
  and objects).  `dumps` uses the stdlib's default separators
  (`", "` and `": "`); string escaping is modelled for the quote and
  backslash escapes, other characters are carried verbatim.
* `cv2` (OpenCV) is modelled as an oracle structure `CV` of the three
  functions the Chart Gate calls; `cv2.imread` returns `none` for bytes
  that do not decode, `cv2.HoughLinesP` returns `none` when it finds no
  segments.
* `requests` / the Gemini HTTP endpoint are modelled by an oracle
  `UpstreamResp` carrying the status, raw body, reason phrase and url of
  the reply the outbound POST would receive.
-/

namespace YoForex

/-- JSON values as handled by Python's `json` module for the data this
repository stores: numbers are integers, object fields keep insertion
order. -/
inductive Json where
  | null : Json
  | bool : Bool → Json
  | num : Int → Json
  | str : String → Json
  | arr : List Json → Json
  | obj : List (String × Json) → Json
deriving Inhabited

/-- Decimal digit to its character, as produced by Python's `str` of an
`int`. -/
def digitChar : Nat → Char
  | 0 => '0'
  | 1 => '1'
  | 2 => '2'
  | 3 => '3'
  | 4 => '4'
  | 5 => '5'
  | 6 => '6'
  | 7 => '7'
  | 8 => '8'
  | _ => '9'

/-- Fuel-indexed decimal printer for naturals (most significant digit
first); the fuel only bounds the recursion depth. -/
def natDigitsGo : Nat → Nat → List Char
  | 0, _ => []
  | f + 1, n =>
    if n < 10 then [digitChar n]
    else natDigitsGo f (n / 10) ++ [digitChar (n % 10)]

/-- Decimal representation of a natural number, as Python prints it. -/
def natDigits (n : Nat) : List Char :=
  natDigitsGo (n + 1) n

/-- One character of `json.dumps` string escaping: the double quote and
the backslash are escaped, other characters pass through. -/
def escapeChar (c : Char) : List Char :=
  if c = '"' ∨ c = '\\' then ['\\', c] else [c]

/-- `json.dumps` string-body escaping. -/
def escape : List Char → List Char
  | [] => []
  | c :: r => escapeChar c ++ escape r

/-- Separator `json.dumps` places between collection items (its default
`", "`), empty after the last item. -/
def sepFor {α : Type} (t : List α) : List Char :=
  match t with
  | [] => []
  | _ :: _ => [',', ' ']

/-- The text `json.dumps` prints for `None`. -/
def nullChars : List Char := ['n', 'u', 'l', 'l']

/-- The text `json.dumps` prints for `True`. -/
def trueChars : List Char := ['t', 'r', 'u', 'e']

/-- The text `json.dumps` prints for `False`. -/
def falseChars : List Char := ['f', 'a', 'l', 's', 'e']

mutual

/-- `json.dumps` with the stdlib defaults, producing the character list
of the serialized text. -/
def dumps : Json → List Char
  | .null => nullChars
  | .bool true => trueChars
  | .bool false => falseChars
  | .num n => if n < 0 then '-' :: natDigits n.natAbs else natDigits n.natAbs
  | .str s => '"' :: (escape s.data ++ ['"'])
  | .arr xs => '[' :: (dumpsArr xs ++ [']'])
  | .obj kvs => '{' :: (dumpsObj kvs ++ ['}'])

/-- Comma-separated serialization of array items. -/
def dumpsArr : List Json → List Char
  | [] => []
  | x :: t => dumps x ++ (sepFor t ++ dumpsArr t)

/-- Comma-separated serialization of object entries, each as
`"key": value`. -/
def dumpsObj : List (String × Json) → List Char
  | [] => []
  | kv :: t =>
    ('"' :: (escape kv.1.data ++ ['"', ':', ' '])) ++ dumps kv.2 ++ (sepFor t ++ dumpsObj t)

end

/-- `json.dumps` as a string. -/
def dumpsStr (v : Json) : String :=
  String.mk (dumps v)

/-- JSON whitespace. -/
def isWs (c : Char) : Bool :=
  c = ' ' ∨ c = '\n' ∨ c = '\t' ∨ c = '\r'

/-- Drop leading JSON whitespace. -/
def skipWs : List Char → List Char
  | [] => []
  | c :: r => if isWs c then skipWs r else c :: r

/-- ASCII decimal digit test. -/
def isDigitCh (c : Char) : Bool :=
  48 ≤ c.toNat && c.toNat ≤ 57

/-- Value of an ASCII digit character. -/
def digitVal (c : Char) : Nat :=
  c.toNat - 48

/-- Undo `escapeChar`. -/
def unescapeChar (e : Char) : Option Char :=
  if e = '"' then some '"' else if e = '\\' then some '\\' else none

/-- Parse the body of a JSON string, the opening quote already consumed;
returns the decoded characters and the input following the closing
quote. -/
def parseStrBody : List Char → Option (List Char × List Char)
  | [] => none
  | c :: r =>
    if c = '"' then some ([], r)
    else if c = '\\' then
      match r with
      | [] => none
      | e :: r2 =>
        match unescapeChar e with
        | some c2 => (parseStrBody r2).map fun p => (c2 :: p.1, p.2)
        | none => none
    else (parseStrBody r).map fun p => (c :: p.1, p.2)

/-- Parse a maximal nonempty run of decimal digits. -/
def parseDigits (s : List Char) : Option (Nat × List Char) :=
  match s.takeWhile isDigitCh with
  | [] => none
  | d :: ds =>
    some ((d :: ds).foldl (fun a c => 10 * a + digitVal c) 0, s.dropWhile isDigitCh)

/-- Parsing mode: a single value, or the items of an array / object whose
opening bracket and already-read items (`acc`) are behind us. -/
inductive PMode where
  | val : PMode
  | arrItems : List Json → PMode
  | objItems : List (String × Json) → PMode

/-- Recursive-descent JSON parser (the semantics of `json.loads` on the
texts this repository handles); the fuel bounds the recursion depth and
is in `loads` chosen large enough for any input. -/
def parse : Nat → PMode → List Char → Option (Json × List Char)
  | 0, _, _ => none
  | f + 1, .val, s =>
    match skipWs s with
    | [] => none
    | c :: r =>
      if c = 'n' then
        match r with
        | 'u' :: 'l' :: 'l' :: r2 => some (.null, r2)
        | _ => none
      else if c = 't' then
        match r with
        | 'r' :: 'u' :: 'e' :: r2 => some (.bool true, r2)
        | _ => none
      else if c = 'f' then
        match r with
        | 'a' :: 'l' :: 's' :: 'e' :: r2 => some (.bool false, r2)
        | _ => none
      else if c = '"' then
        match parseStrBody r with
        | some (cs, r2) => some (.str (String.mk cs), r2)
        | none => none
      else if c = '-' then
        match parseDigits r with
        | some (m, r2) => some (.num (-(m : Int)), r2)
        | none => none
      else if c = '[' then
        match skipWs r with
        | [] => none
        | c2 :: r2 => if c2 = ']' then some (.arr [], r2) else parse f (.arrItems []) r
      else if c = '{' then
        match skipWs r with
        | [] => none
        | c2 :: r2 => if c2 = '}' then some (.obj [], r2) else parse f (.objItems []) r
      else
        match parseDigits (c :: r) with
        | some (m, r2) => some (.num (m : Int), r2)
        | none => none
  | f + 1, .arrItems acc, s =>
    match parse f .val s with
    | none => none
    | some (v, r) =>
      match skipWs r with
      | [] => none
      | c :: r2 =>
        if c = ',' then parse f (.arrItems (acc ++ [v])) r2
        else if c = ']' then some (.arr (acc ++ [v]), r2)
        else none
  | f + 1, .objItems acc, s =>
    match skipWs s with
    | [] => none
    | c :: r =>
      if c = '"' then
        match parseStrBody r with
        | none => none
        | some (k, r1) =>
          match skipWs r1 with
          | [] => none
          | c2 :: r2 =>
            if c2 = ':' then
              match parse f .val r2 with
              | none => none
              | some (v, r3) =>
                match skipWs r3 with
                | [] => none
                | c3 :: r4 =>
                  if c3 = ',' then parse f (.objItems (acc ++ [(String.mk k, v)])) r4
                  else if c3 = '}' then some (.obj (acc ++ [(String.mk k, v)]), r4)
                  else none
            else none
      else none

/-- `json.loads`: parse a full JSON text; trailing non-whitespace makes
the whole parse fail, as `json.loads` raises there. -/
def loads (s : String) : Option Json :=
  match parse (2 * s.data.length + 2) .val s.data with
  | some (v, rest) => if skipWs rest = [] then some v else none
  | none => none

/-- A suffix at which a number may stop: empty, or starting with a
non-digit (in serialized JSON a value is followed by `,`, `]`, `}` or the
end of the text). -/
def delimOk : List Char → Bool
  | [] => true
  | c :: _ => !isDigitCh c

/-- A prefix consisting only of JSON whitespace. -/
def wsOnly (l : List Char) : Prop :=
  ∀ c ∈ l, isWs c = true

mutual

/-- Recursion-depth budget `parse` spends while consuming the
serialization of a value. -/
def needV : Json → Nat
  | .null => 1
  | .bool _ => 1
  | .num _ => 1
  | .str _ => 1
  | .arr xs => 1 + needI xs
  | .obj kvs => 1 + needO kvs

/-- Budget for the items of an array whose bracket is already consumed. -/
def needI : List Json → Nat
  | [] => 0
  | x :: t => 1 + needV x + needI t

/-- Budget for the entries of an object whose brace is already consumed. -/
def needO : List (String × Json) → Nat
  | [] => 0
  | kv :: t => 1 + needV kv.2 + needO t

end

/-! ## Chart Gate (`utils/image_check.py`) -/

/-- A decoded grayscale raster, as `cv2.imread(path, cv2.IMREAD_GRAYSCALE)`
returns: rows of pixel intensities. -/
def GrayImage := List (List Nat)

/-- A line segment `(x1, y1, x2, y2)` as returned by `cv2.HoughLinesP`. -/
def LineSeg := Nat × Nat × Nat × Nat

/-- Geometric parameters of the probabilistic Hough transform call:
`rho`, the denominator of `theta` (the source passes `np.pi / 180`),
the vote threshold, `minLineLength` and `maxLineGap`. -/
structure HoughParams where
  rho : Nat
  thetaDenom : Nat
  votes : Nat
  minLineLength : Nat
  maxLineGap : Nat

/-- Oracle for the OpenCV functions the Chart Gate calls.  `imread`
returns `none` when the file's bytes do not decode as an image;
`houghLinesP` returns `none` when no line segments are found (the Python
value `None`) and the list of detected segments otherwise. -/
structure CV where
  imread : String → Option GrayImage
  canny : GrayImage → Nat → Nat → Nat → GrayImage
  houghLinesP : GrayImage → HoughParams → Option (List LineSeg)

/-- `utils/image_check.py:is_trading_chart`: decode grayscale, Canny with
thresholds 50/150 and aperture 3, probabilistic Hough with rho 1,
theta pi/180, threshold 100, minLineLength 100, maxLineGap 10; accept iff
`lines is not None and len(lines) > 20`.  An undecodable image returns
`False`; no code path raises, so the function is total. -/
def is_trading_chart (cv : CV) (path : String) : Bool :=
  match cv.imread path with
  | none => false
  | some img =>
    match cv.houghLinesP (cv.canny img 50 150 3) ⟨1, 180, 100, 100, 10⟩ with
    | none => false
    | some lines => 20 < lines.length

/-! ## Analysis Requestor (`utils/gemini_helper.py` and `app.py`) -/

/-- The errors the two `analyze_image_with_gemini` variants can raise:
FastAPI `HTTPException`s, and the uncaught Python exceptions `KeyError`,
`IndexError`, `TypeError` and `json.JSONDecodeError`. -/
inductive PyError where
  | httpException (status : Nat) (detail : String)
  | keyError
  | indexError
  | typeError
  | jsonDecodeError
deriving DecidableEq

/-- The reply the outbound `requests.post` to the Gemini endpoint
receives: HTTP status, raw body (`resp.text`), reason phrase and url
(used by `raise_for_status` messages). -/
structure UpstreamResp where
  status : Nat
  text : String
  reason : String
  url : String

/-- First value bound to a key in a Python dict built in insertion order
(keys are unique in dicts produced by `json.loads`). -/
def jLookup : List (String × Json) → String → Option Json
  | [], _ => none
  | (k1, v) :: t, k => if k1 = k then some v else jLookup t k

/-- Python subscripting `j[k]` with a string key: on a dict, the value or
`KeyError`; on anything else, `TypeError`. -/
def pyKey (j : Json) (k : String) : Except PyError Json :=
  match j with
  | .obj kvs =>
    match jLookup kvs k with
    | some v => .ok v
    | none => .error .keyError
  | _ => .error .typeError

/-- Python subscripting `j[i]` with an integer: on a list, the element or
`IndexError`; on a string, the one-character string or `IndexError`; on a
dict, `KeyError`; otherwise `TypeError`. -/
def pyIdx (j : Json) (i : Nat) : Except PyError Json :=
  match j with
  | .arr xs =>
    match xs[i]? with
    | some v => .ok v
    | none => .error .indexError
  | .str s =>
    match s.data[i]? with
    | some c => .ok (.str (String.mk [c]))
    | none => .error .indexError
  | .obj _ => .error .keyError
  | _ => .error .typeError

/-- The envelope walk `raw["candidates"][0]["content"]["parts"][0]["text"]`
both variants perform on the decoded upstream reply. -/
def extractCandidateText (raw : Json) : Except PyError Json := do
  let c ← pyKey raw "candidates"
  let c0 ← pyIdx c 0
  let ct ← pyKey c0 "content"
  let ps ← pyKey ct "parts"
  let p0 ← pyIdx ps 0
  pyKey p0 "text"

/-- `utils/gemini_helper.py:analyze_image_with_gemini`, from the outbound
call onward.  Building the request (the ICT prompt embedding the
timeframe, the base64 image bytes, the keyed URL) does not affect how the
reply is handled and is abstracted into the `resp` oracle.  A non-200
status raises `HTTPException(502, detail="AI API error: " + resp.text)`
carrying the upstream body; afterwards `resp.json()` (a failure raises
`json.JSONDecodeError`), the envelope walk (uncaught `KeyError` /
`IndexError` / `TypeError`) and `json.loads` of the candidate text run
with no surrounding try/except. -/
def analyze_image_with_gemini (resp : UpstreamResp) (_timeframe : String) :
    Except PyError Json :=
  if resp.status ≠ 200 then
    .error (.httpException 502 ("AI API error: " ++ resp.text))
  else
    match loads resp.text with
    | none => .error .jsonDecodeError
    | some raw =>
      match extractCandidateText raw with
      | .error e => .error e
      | .ok (.str s) =>
        match loads s with
        | some v => .ok v
        | none => .error .jsonDecodeError
      | .ok _ => .error .typeError

/-- The message of the `requests.exceptions.HTTPError` that
`resp.raise_for_status()` raises for a 4xx/5xx reply: it is built from
the status code, reason and url only — the response body is not part of
it. -/
def raise_for_status_message (resp : UpstreamResp) : String :=
  if resp.status < 500 then
    toString resp.status ++ " Client Error: " ++ resp.reason ++ " for url: " ++ resp.url
  else
    toString resp.status ++ " Server Error: " ++ resp.reason ++ " for url: " ++ resp.url

/-- The detail string of the 500 `HTTPException` `app.py` raises when it
fails to parse the Gemini reply. -/
def appParseFailureDetail : String :=
  "Failed to parse the structured JSON from the AI API response."

/-- `app.py:analyze_image_with_gemini` (the older standalone variant),
from the outbound call onward.  It calls `resp.raise_for_status()`, so
only statuses in [400, 600) raise, wrapped as `HTTPException(502, ...)`
whose detail carries the exception message (not the body); any other
status — 200 or not — proceeds to parsing.  `KeyError`, `IndexError` and
`json.JSONDecodeError` during parsing are caught and re-raised as
`HTTPException(500, ...)`; a `TypeError` (subscripting a non-container in
the envelope walk, or `json.loads` of a non-string) is not caught. -/
def analyze_image_with_gemini_app (resp : UpstreamResp) : Except PyError Json :=
  if 400 ≤ resp.status ∧ resp.status < 600 then
    .error (.httpException 502
      ("Error communicating with the AI API: " ++ raise_for_status_message resp))
  else
    match loads resp.text with
    | none => .error (.httpException 500 appParseFailureDetail)
    | some raw =>
      match extractCandidateText raw with
      | .error .typeError => .error .typeError
      | .error _ => .error (.httpException 500 appParseFailureDetail)
      | .ok (.str s) =>
        match loads s with
        | some v => .ok v
        | none => .error (.httpException 500 appParseFailureDetail)
      | .ok _ => .error .typeError

/-! ## The analyze-chart handlers (`routers/scalp.py`, `routers/swing.py`,
`app.py`) -/

/-- The externally visible side effects a handler performs, in program
order: writing the upload to disk, invoking the Gemini call, deleting the
file, and the history insert/commit. -/
inductive Effect where
  | saveFile (path : String)
  | geminiCall
  | removeFile (path : String)
  | dbAdd (analysis : Json)
  | dbCommit

/-- One request's world, as the router handlers see it: the OpenCV oracle
and saved-upload path consulted by the Chart Gate, and the upstream reply
the Gemini call would receive. -/
structure ReqCtx where
  cv : CV
  path : String
  upstream : UpstreamResp

/-- `routers/scalp.py:analyze_chart`: save the upload; if
`is_trading_chart` fails, remove the file and raise
`HTTPException(400, ...)`; otherwise call the helper Analysis Requestor
with the file removed in a `finally`, then `db.add` / `db.commit` a
`SwingAnalysisHistory(analysis=result)` row and return the result.
The returned list is the trace of effects in program order. -/
def scalp_analyze_chart (ctx : ReqCtx) (timeframe : String) :
    Except PyError Json × List Effect :=
  if is_trading_chart ctx.cv ctx.path then
    match analyze_image_with_gemini ctx.upstream timeframe with
    | .ok result =>
      (.ok result,
        [.saveFile ctx.path, .geminiCall, .removeFile ctx.path, .dbAdd result, .dbCommit])
    | .error e => (.error e, [.saveFile ctx.path, .geminiCall, .removeFile ctx.path])
  else
    (.error (.httpException 400 "Please upload a valid trading chart image."),
      [.saveFile ctx.path, .removeFile ctx.path])

/-- `routers/swing.py:analyze_chart`: identical control flow to the scalp
handler (save, gate, analyze with `finally` removal, persist, return). -/
def swing_analyze_chart (ctx : ReqCtx) (timeframe : String) :
    Except PyError Json × List Effect :=
  if is_trading_chart ctx.cv ctx.path then
    match analyze_image_with_gemini ctx.upstream timeframe with
    | .ok result =>
      (.ok result,
        [.saveFile ctx.path, .geminiCall, .removeFile ctx.path, .dbAdd result, .dbCommit])
    | .error e => (.error e, [.saveFile ctx.path, .geminiCall, .removeFile ctx.path])
  else
    (.error (.httpException 400 "Please upload a valid trading chart image."),
      [.saveFile ctx.path, .removeFile ctx.path])

/-- One request's world for `app.py:analyze_chart_endpoint`: the saved
path, whether writing the upload succeeded (with the `IOError` text if
not) and the upstream reply. -/
structure AppReqCtx where
  path : String
  saveOk : Bool
  ioError : String
  upstream : UpstreamResp

/-- `app.py:analyze_chart_endpoint`: save the upload (an `IOError` raises
`HTTPException(500, ...)` with nothing saved); then — with no Chart Gate
check — call the app-variant Analysis Requestor, removing the file in a
`finally`, and return its result. -/
def analyze_chart_endpoint (ctx : AppReqCtx) : Except PyError Json × List Effect :=
  if ctx.saveOk then
    match analyze_image_with_gemini_app ctx.upstream with
    | .ok r => (.ok r, [.saveFile ctx.path, .geminiCall, .removeFile ctx.path])
    | .error e => (.error e, [.saveFile ctx.path, .geminiCall, .removeFile ctx.path])
  else
    (.error (.httpException 500 ("Failed to save uploaded file: " ++ ctx.ioError)), [])

/-- The `enum=` list the scalp router passes to `Query` for `timeframe`. -/
def scalpTimeframes : List String := ["M1", "M5", "M15", "M30", "H1"]

/-- The `enum=` list the swing router passes to `Query` for `timeframe`. -/
def swingTimeframes : List String := ["H1", "D1", "W1"]

/-- Modelled behavior of FastAPI for
`timeframe: str = Query(..., enum=[...])` as the scalp router declares
it: `enum` is not a validation parameter `Query` recognizes — it is
forwarded into the generated OpenAPI schema only — and the declared
parameter type is plain `str`, so at runtime every string is accepted and
passed to the handler unchanged. -/
def scalp_validate_timeframe (tf : String) : Except PyError String := .ok tf

/-- Same modelled FastAPI behavior for the swing router's
`Query(..., enum=["H1", "D1", "W1"])` declaration. -/
def swing_validate_timeframe (tf : String) : Except PyError String := .ok tf

/-- The scalp `/chart/` route: FastAPI parameter handling, then the
handler. -/
def scalp_route (ctx : ReqCtx) (tf : String) : Except PyError Json × List Effect :=
  match scalp_validate_timeframe tf with
  | .error e => (.error e, [])
  | .ok tf2 => scalp_analyze_chart ctx tf2

/-- The swing `/chart/` route: FastAPI parameter handling, then the
handler. -/
def swing_route (ctx : ReqCtx) (tf : String) : Except PyError Json × List Effect :=
  match swing_validate_timeframe tf with
  | .error e => (.error e, [])
  | .ok tf2 => swing_analyze_chart ctx tf2

/-! ## History persistence (`models.py:JSONEncodedDict`) -/

namespace JSONEncodedDict

/-- `models.py:JSONEncodedDict.process_bind_param`: `None` maps to
`None`, anything else to `json.dumps(value)`. -/
def process_bind_param : Option Json → Option String
  | none => none
  | some v => some (dumpsStr v)

/-- `models.py:JSONEncodedDict.process_result_value`: `None` maps to
`None`, anything else to `json.loads(value)` (which raises on text that
is not valid JSON). -/
def process_result_value : Option String → Except PyError (Option Json)
  | none => .ok none
  | some s =>
    match loads s with
    | some j => .ok (some j)
    | none => .error .jsonDecodeError

end JSONEncodedDict

/-! ## Background alert poller (`schemas/swing.py`) and the shared alert
list (`routers/alerts.py`) -/

/-- `schemas/swing.py:PriceAlert` (pydantic): id, pair, target,
direction.  `target` is declared `float` in the source; nothing in the
poller depends on fractional values, so it is carried as the model's
integer JSON number. -/
structure PriceAlert where
  id : String
  pair : String
  target : Int
  direction : String
deriving DecidableEq

/-- Pydantic validation `PriceAlert(**item)` of one fetched payload item:
succeeds iff the item is an object carrying the four fields with the
right shapes (extra keys are ignored); a failure is caught and the item
skipped. -/
def parsePriceAlert (j : Json) : Option PriceAlert :=
  match j with
  | .obj kvs =>
    match jLookup kvs "id", jLookup kvs "pair", jLookup kvs "target",
        jLookup kvs "direction" with
    | some (.str i), some (.str p), some (.num t), some (.str d) => some ⟨i, p, t, d⟩
    | _, _, _, _ => none
  | _ => none

/-- The mutable state the alert handlers read: the module-level list
`alerts` in `routers/alerts.py`, served by `GET /price` and scanned by
the alert websocket. -/
structure AlertsState where
  routerAlerts : List PriceAlert
deriving DecidableEq

/-- `schemas/swing.py:sync_alerts_from_remote` after a successful fetch
of `payload`: the statement `alerts = []` binds a fresh function-local
list (there is no `global` declaration, and `routers.alerts.alerts` lives
in a different module that this one does not import), the validated
alerts are appended to that local list, and the function returns it.  The
pair result records the shared state — never reassigned or mutated —
alongside the returned list. -/
def sync_alerts_from_remote (st : AlertsState) (payload : List Json) :
    AlertsState × List PriceAlert :=
  (st, payload.filterMap parsePriceAlert)

/-- One tick of `schemas/swing.py:_periodic_alert_sync`: it runs
`await sync_alerts_from_remote()` and discards the returned list. -/
def periodic_alert_sync_tick (st : AlertsState) (payload : List Json) : AlertsState :=
  (sync_alerts_from_remote st payload).1


/-! ## Predicates and concrete fixtures used by the statements below -/

/-- The gateway error both variants raise on upstream failure:
`HTTPException` with status 502. -/
def isGatewayError : PyError → Bool
  | .httpException 502 _ => true
  | _ => false

/-- The parse-side failures of the helper Analysis Requestor: the
uncaught `KeyError` / `IndexError` / `TypeError` / `json.JSONDecodeError`. -/
def isParsePyError : PyError → Bool
  | .keyError => true
  | .indexError => true
  | .typeError => true
  | .jsonDecodeError => true
  | .httpException _ _ => false

/-- Is an effect a history-row insert? -/
def isDbAdd : Effect → Bool
  | .dbAdd _ => true
  | _ => false

/-- The history inserts a handler response should come with: exactly the
returned blob on success, nothing on failure. -/
def dbAddsOf : Except PyError Json → List Effect
  | .ok j => [.dbAdd j]
  | .error _ => []

/-- A one-pixel decoded grayscale image. -/
def img0 : GrayImage := [[0]]

/-- A degenerate line segment. -/
def seg0 : LineSeg := (0, 0, 0, 0)

/-- World in which the upload decodes and the line detector reports 25
segments: the gate accepts. -/
def cvChart : CV :=
  ⟨fun _ => some img0, fun img _ _ _ => img, fun _ _ => some (List.replicate 25 seg0)⟩

/-- World in which the upload decodes but the detector reports only 5
segments: the gate rejects. -/
def cvFewLines : CV :=
  ⟨fun _ => some img0, fun img _ _ _ => img, fun _ _ => some (List.replicate 5 seg0)⟩

/-- World in which the upload's bytes do not decode as an image. -/
def cvUnreadable : CV :=
  ⟨fun _ => none, fun img _ _ _ => img, fun _ _ => none⟩

/-- A failing upstream reply: status 404 with a body. -/
def resp404 : UpstreamResp :=
  ⟨404, "upstream body", "Not Found", "https://generativelanguage.googleapis.com/"⟩

/-- A 200 reply whose body is not JSON. -/
def resp200Bad : UpstreamResp := ⟨200, "not json", "OK", "u"⟩

/-- A well-formed Gemini envelope whose generated text is `null`. -/
def envelopeNullText : String :=
  "\x7b\"candidates\": [\x7b\"content\": \x7b\"parts\": [\x7b\"text\": \"null\"\x7d]\x7d\x7d]\x7d"

/-- A non-200 success reply (201) carrying a well-formed envelope. -/
def resp201 : UpstreamResp := ⟨201, envelopeNullText, "Created", "u"⟩

/-- A request whose image the Chart Gate rejects. -/
def ctxGateFalse : ReqCtx := ⟨cvFewLines, "uploads/img.png", resp404⟩

/-- A request whose image the Chart Gate accepts (upstream then fails
with 404). -/
def ctxGateTrue : ReqCtx := ⟨cvChart, "uploads/img.png", resp404⟩

/-- An `app.py` request over the same gate-rejected upload as
`ctxGateFalse`, with the save succeeding. -/
def appCtx0 : AppReqCtx := ⟨"uploads/img.png", true, "", resp404⟩

/-- One fetched alert payload item with all four fields well formed. -/
def alertPayloadItem : Json :=
  .obj [("id", .str "a1"), ("pair", .str "EURUSD"), ("target", .num 2),
    ("direction", .str "up")]

/-- The alert `alertPayloadItem` validates to. -/
def alert0 : PriceAlert := ⟨"a1", "EURUSD", 2, "up"⟩

/-! ## Lemmas: round trip of the `json` model -/

theorem mk_data (s : String) : String.mk s.data = s := rfl

theorem digitChar_isDigit {d : Nat} (h : d < 10) : isDigitCh (digitChar d) = true := by
  interval_cases d <;> decide

theorem digitVal_digitChar {d : Nat} (h : d < 10) : digitVal (digitChar d) = d := by
  interval_cases d <;> decide

theorem natDigitsGo_spec :
    ∀ f n, n < f →
      natDigitsGo f n ≠ [] ∧
      (∀ c ∈ natDigitsGo f n, isDigitCh c = true) ∧
      ∀ a : Nat,
        (natDigitsGo f n).foldl (fun a c => 10 * a + digitVal c) a =
          a * 10 ^ (natDigitsGo f n).length + n := by
  intro f
  induction f with
  | zero => intro n h; omega
  | succ f ih =>
    intro n h
    by_cases h10 : n < 10
    · refine ⟨by simp [natDigitsGo, h10], ?_, ?_⟩
      · intro c hc
        simp [natDigitsGo, h10] at hc
        subst hc
        exact digitChar_isDigit h10
      · intro a
        simp [natDigitsGo, h10, digitVal_digitChar h10]
        ring
    · have hdiv : n / 10 < f := by omega
      obtain ⟨hne, hdig, hval⟩ := ih (n / 10) hdiv
      have hmlt : n % 10 < 10 := by omega
      refine ⟨by simp [natDigitsGo, h10], ?_, ?_⟩
      · intro c hc
        simp only [natDigitsGo, if_neg h10] at hc
        rcases List.mem_append.mp hc with hl | hr
        · exact hdig c hl
        · simp at hr
          subst hr
          exact digitChar_isDigit hmlt
      · intro a
        simp only [natDigitsGo, if_neg h10, List.foldl_append, List.length_append,
          List.foldl_cons, List.foldl_nil, List.length_cons, List.length_nil]
        rw [hval a, digitVal_digitChar hmlt]
        generalize (natDigitsGo f (n / 10)).length = L
        have hmod : 10 * (n / 10) + n % 10 = n := by omega
        have hpow : (10 : ℕ) ^ (L + (0 + 1)) = 10 ^ L * 10 := by
          rw [Nat.zero_add, pow_succ]
        rw [hpow]
        have key : 10 * (a * 10 ^ L + n / 10) + n % 10 =
            a * (10 ^ L * 10) + (10 * (n / 10) + n % 10) := by ring
        rw [hmod] at key
        exact key

theorem natDigits_ne_nil (n : Nat) : natDigits n ≠ [] :=
  (natDigitsGo_spec (n + 1) n (Nat.lt_succ_self n)).1

theorem natDigits_all_digit (n : Nat) : ∀ c ∈ natDigits n, isDigitCh c = true :=
  (natDigitsGo_spec (n + 1) n (Nat.lt_succ_self n)).2.1

theorem natDigits_val (n : Nat) :
    (natDigits n).foldl (fun a c => 10 * a + digitVal c) 0 = n := by
  have h := (natDigitsGo_spec (n + 1) n (Nat.lt_succ_self n)).2.2 0
  simpa [natDigits] using h

theorem takeWhile_append_all {p : Char → Bool} {l r : List Char}
    (h : ∀ c ∈ l, p c = true) : (l ++ r).takeWhile p = l ++ r.takeWhile p := by
  induction l with
  | nil => simp
  | cons c t ih =>
    have hc : p c = true := h c (by simp)
    simp only [List.cons_append, List.takeWhile_cons, hc, if_true]
    rw [ih fun d hd => h d (by simp [hd])]

theorem dropWhile_append_all {p : Char → Bool} {l r : List Char}
    (h : ∀ c ∈ l, p c = true) : (l ++ r).dropWhile p = r.dropWhile p := by
  induction l with
  | nil => simp
  | cons c t ih =>
    have hc : p c = true := h c (by simp)
    simp only [List.cons_append, List.dropWhile_cons, hc, if_true]
    exact ih fun d hd => h d (by simp [hd])

theorem takeWhile_delim {rest : List Char} (h : delimOk rest = true) :
    rest.takeWhile isDigitCh = [] := by
  cases rest with
  | nil => simp
  | cons c t =>
    simp only [delimOk, Bool.not_eq_true'] at h
    simp [List.takeWhile_cons, h]

theorem dropWhile_delim {rest : List Char} (h : delimOk rest = true) :
    rest.dropWhile isDigitCh = rest := by
  cases rest with
  | nil => simp
  | cons c t =>
    simp only [delimOk, Bool.not_eq_true'] at h
    simp [List.dropWhile_cons, h]

theorem parseDigits_natDigits (n : Nat) (rest : List Char) (h : delimOk rest = true) :
    parseDigits (natDigits n ++ rest) = some (n, rest) := by
  have ht : (natDigits n ++ rest).takeWhile isDigitCh = natDigits n := by
    rw [takeWhile_append_all (natDigits_all_digit n), takeWhile_delim h, List.append_nil]
  have hd : (natDigits n ++ rest).dropWhile isDigitCh = rest := by
    rw [dropWhile_append_all (natDigits_all_digit n), dropWhile_delim h]
  unfold parseDigits
  rw [ht, hd]
  cases hnd : natDigits n with
  | nil => exact absurd hnd (natDigits_ne_nil n)
  | cons d ds =>
    have hval := natDigits_val n
    rw [hnd] at hval
    simp [hval]

theorem parseStrBody_escape (s rest : List Char) :
    parseStrBody (escape s ++ '"' :: rest) = some (s, rest) := by
  induction s with
  | nil =>
    show parseStrBody ('"' :: rest) = some ([], rest)
    rw [parseStrBody.eq_def]
    simp
  | cons c t ih =>
    by_cases hc : c = '"' ∨ c = '\\'
    · have hesc : escapeChar c = ['\\', c] := by simp [escapeChar, hc]
      have hun : unescapeChar c = some c := by
        rcases hc with h | h <;> subst h <;> simp [unescapeChar]
      show parseStrBody (escapeChar c ++ escape t ++ '"' :: rest) = _
      rw [hesc]
      show parseStrBody ('\\' :: c :: (escape t ++ '"' :: rest)) = _
      rw [parseStrBody.eq_def]
      simp [hun, ih]
    · push_neg at hc
      have hesc : escapeChar c = [c] := by simp [escapeChar, hc.1, hc.2]
      show parseStrBody (escapeChar c ++ escape t ++ '"' :: rest) = _
      rw [hesc]
      show parseStrBody (c :: (escape t ++ '"' :: rest)) = _
      rw [parseStrBody.eq_def]
      simp [hc.1, hc.2, ih]

theorem wsOnly_nil : wsOnly [] := by
  intro c hc
  simp at hc

theorem wsOnly_space : wsOnly [' '] := by
  intro c hc
  simp at hc
  subst hc
  decide

theorem skipWs_cons_not_ws {c : Char} {r : List Char} (h : isWs c = false) :
    skipWs (c :: r) = c :: r := by
  simp [skipWs, h]

theorem skipWs_append_ws {pre : List Char} (h : wsOnly pre) (s : List Char) :
    skipWs (pre ++ s) = skipWs s := by
  induction pre with
  | nil => simp
  | cons c t ih =>
    have hc : isWs c = true := h c (by simp)
    simp only [List.cons_append, skipWs, hc, if_true]
    exact ih fun d hd => h d (by simp [hd])

theorem isDigitCh_not_ws {c : Char} (h : isDigitCh c = true) : isWs c = false := by
  have hn : ¬(c = ' ' ∨ c = '\n' ∨ c = '\t' ∨ c = '\r') := by
    rintro (rfl | rfl | rfl | rfl) <;> exact absurd h (by decide)
  simpa [isWs, decide_eq_false_iff_not] using hn

theorem isDigitCh_ne_keys {c : Char} (h : isDigitCh c = true) :
    c ≠ 'n' ∧ c ≠ 't' ∧ c ≠ 'f' ∧ c ≠ '"' ∧ c ≠ '-' ∧ c ≠ '[' ∧ c ≠ '{' := by
  refine ⟨?_, ?_, ?_, ?_, ?_, ?_, ?_⟩ <;> rintro rfl <;> exact absurd h (by decide)

theorem isDigitCh_ne_closers {c : Char} (h : isDigitCh c = true) :
    c ≠ ']' ∧ c ≠ '}' := by
  refine ⟨?_, ?_⟩ <;> rintro rfl <;> exact absurd h (by decide)

/-- Serialized JSON never starts with whitespace nor with a closing
bracket. -/
theorem dumps_cons (v : Json) :
    ∃ c t, dumps v = c :: t ∧ isWs c = false ∧ c ≠ ']' ∧ c ≠ '}' := by
  cases v with
  | null => exact ⟨'n', ['u', 'l', 'l'], by simp [dumps, nullChars], by decide, by decide, by decide⟩
  | bool b =>
    cases b with
    | true => exact ⟨'t', ['r', 'u', 'e'], by simp [dumps, trueChars], by decide, by decide, by decide⟩
    | false => exact ⟨'f', ['a', 'l', 's', 'e'], by simp [dumps, falseChars], by decide, by decide, by decide⟩
  | num n =>
    by_cases hn : n < 0
    · exact ⟨'-', natDigits n.natAbs, by simp [dumps, hn], by decide, by decide, by decide⟩
    · cases hnd : natDigits n.natAbs with
      | nil => exact absurd hnd (natDigits_ne_nil _)
      | cons d ds =>
        have hd : isDigitCh d = true :=
          natDigits_all_digit n.natAbs d (by rw [hnd]; simp)
        exact ⟨d, ds, by simp [dumps, hn, hnd], isDigitCh_not_ws hd,
          (isDigitCh_ne_closers hd).1, (isDigitCh_ne_closers hd).2⟩
  | str s =>
    exact ⟨'"', escape s.data ++ ['"'], by simp [dumps], by decide, by decide, by decide⟩
  | arr xs =>
    exact ⟨'[', dumpsArr xs ++ [']'], by simp [dumps], by decide, by decide, by decide⟩
  | obj kvs =>
    exact ⟨'{', dumpsObj kvs ++ ['}'], by simp [dumps], by decide, by decide, by decide⟩

theorem needV_pos (v : Json) : 1 ≤ needV v := by
  cases v <;> simp [needV]

mutual

theorem needV_le_dumps : (v : Json) → needV v ≤ 2 * (dumps v).length
  | .null => by simp [needV, dumps, nullChars]
  | .bool b => by cases b <;> simp [needV, dumps, trueChars, falseChars]
  | .num n => by
    have h1 : 1 ≤ (dumps (Json.num n)).length := by
      simp only [dumps]
      by_cases hn : n < 0
      · simp [hn]
      · simp only [if_neg hn]
        cases hnd : natDigits n.natAbs with
        | nil => exact absurd hnd (natDigits_ne_nil _)
        | cons d ds => simp
    simp only [needV]
    omega
  | .str s => by
    simp only [needV, dumps, List.length_cons]
    omega
  | .arr xs => by
    have h := needI_le_dumps xs
    simp only [needV, dumps, List.length_cons, List.length_append, List.length_singleton]
    omega
  | .obj kvs => by
    have h := needO_le_dumps kvs
    simp only [needV, dumps, List.length_cons, List.length_append, List.length_singleton]
    omega

theorem needI_le_dumps : (xs : List Json) → needI xs ≤ 1 + 2 * (dumpsArr xs).length
  | [] => by simp [needI]
  | x :: t => by
    have h1 := needV_le_dumps x
    have h2 := needI_le_dumps t
    cases t with
    | nil =>
      simp only [needI, dumpsArr, sepFor, List.append_nil, List.length_append,
        List.length_nil]
      omega
    | cons y t2 =>
      simp only [needI, dumpsArr, sepFor, List.length_append, List.length_cons,
        List.length_nil] at h2 ⊢
      omega

theorem needO_le_dumps : (kvs : List (String × Json)) → needO kvs ≤ 1 + 2 * (dumpsObj kvs).length
  | [] => by simp [needO]
  | kv :: t => by
    have h1 := needV_le_dumps kv.2
    have h2 := needO_le_dumps t
    cases t with
    | nil =>
      simp only [needO, dumpsObj, sepFor, List.append_nil, List.length_append,
        List.length_cons, List.length_nil]
      omega
    | cons kv2 t2 =>
      simp only [needO, dumpsObj, sepFor, List.length_append, List.length_cons,
        List.length_nil] at h2 ⊢
      omega

end

/-- The parser inverts the serializer: with enough fuel, parsing the
serialization of any value (after any whitespace, before any suffix that
does not continue a number) succeeds and returns exactly that value. -/
theorem parse_dumps_all (fuel : Nat) :
    (∀ v pre rest, needV v ≤ fuel → wsOnly pre → delimOk rest = true →
      parse fuel .val (pre ++ dumps v ++ rest) = some (v, rest)) ∧
    (∀ xs acc pre rest, xs ≠ [] → needI xs ≤ fuel → wsOnly pre → delimOk rest = true →
      parse fuel (.arrItems acc) (pre ++ (dumpsArr xs ++ ']' :: rest)) =
        some (.arr (acc ++ xs), rest)) ∧
    (∀ kvs acc pre rest, kvs ≠ [] → needO kvs ≤ fuel → wsOnly pre → delimOk rest = true →
      parse fuel (.objItems acc) (pre ++ (dumpsObj kvs ++ '}' :: rest)) =
        some (.obj (acc ++ kvs), rest)) := by
  induction fuel with
  | zero =>
    refine ⟨?_, ?_, ?_⟩
    · intro v pre rest hneed _ _
      have := needV_pos v
      omega
    · intro xs acc pre rest hne hneed _ _
      cases xs with
      | nil => exact absurd rfl hne
      | cons x t =>
        simp only [needI] at hneed
        omega
    · intro kvs acc pre rest hne hneed _ _
      cases kvs with
      | nil => exact absurd rfl hne
      | cons kv t =>
        simp only [needO] at hneed
        omega
  | succ f ih =>
    obtain ⟨ihV, ihA, ihO⟩ := ih
    refine ⟨?_, ?_, ?_⟩
    · intro v pre rest hneed hpre hrest
      cases v with
      | null =>
        have hs : pre ++ dumps Json.null ++ rest = pre ++ ('n' :: 'u' :: 'l' :: 'l' :: rest) := by
          simp [dumps, nullChars]
        rw [hs]
        simp only [parse]
        rw [skipWs_append_ws hpre]
        simp [skipWs, isWs]
      | bool b =>
        cases b with
        | true =>
          have hs : pre ++ dumps (Json.bool true) ++ rest
              = pre ++ ('t' :: 'r' :: 'u' :: 'e' :: rest) := by
            simp [dumps, trueChars]
          rw [hs]
          simp only [parse]
          rw [skipWs_append_ws hpre]
          simp [skipWs, isWs]
        | false =>
          have hs : pre ++ dumps (Json.bool false) ++ rest
              = pre ++ ('f' :: 'a' :: 'l' :: 's' :: 'e' :: rest) := by
            simp [dumps, falseChars]
          rw [hs]
          simp only [parse]
          rw [skipWs_append_ws hpre]
          simp [skipWs, isWs]
      | num n =>
        by_cases hn : n < 0
        · have hs : pre ++ dumps (Json.num n) ++ rest
              = pre ++ ('-' :: (natDigits n.natAbs ++ rest)) := by
            simp [dumps, hn]
          rw [hs]
          simp only [parse]
          rw [skipWs_append_ws hpre]
          have hpd := parseDigits_natDigits n.natAbs rest hrest
          simp [skipWs, isWs, hpd]
          rw [abs_of_neg hn, neg_neg]
        · cases hnd : natDigits n.natAbs with
          | nil => exact absurd hnd (natDigits_ne_nil _)
          | cons d ds =>
            have hdig : isDigitCh d = true :=
              natDigits_all_digit n.natAbs d (by rw [hnd]; simp)
            obtain ⟨k1, k2, k3, k4, k5, k6, k7⟩ := isDigitCh_ne_keys hdig
            have hs : pre ++ dumps (Json.num n) ++ rest = pre ++ (d :: (ds ++ rest)) := by
              simp [dumps, hn, hnd]
            rw [hs]
            simp only [parse]
            rw [skipWs_append_ws hpre, skipWs_cons_not_ws (isDigitCh_not_ws hdig)]
            have hpd : parseDigits (d :: (ds ++ rest)) = some (n.natAbs, rest) := by
              have h := parseDigits_natDigits n.natAbs rest hrest
              rw [hnd] at h
              simpa using h
            simp [k1, k2, k3, k4, k5, k6, k7, hpd]
            omega
      | str s =>
        have hs : pre ++ dumps (Json.str s) ++ rest
            = pre ++ ('"' :: (escape s.data ++ '"' :: rest)) := by
          simp [dumps]
        rw [hs]
        simp only [parse]
        rw [skipWs_append_ws hpre]
        simp [skipWs, isWs, parseStrBody_escape s.data rest, mk_data]
      | arr xs =>
        cases xs with
        | nil =>
          have hs : pre ++ dumps (Json.arr []) ++ rest = pre ++ ('[' :: ']' :: rest) := by
            simp [dumps, dumpsArr]
          rw [hs]
          simp only [parse]
          rw [skipWs_append_ws hpre]
          simp [skipWs, isWs]
        | cons x t =>
          obtain ⟨c, ct, hdx, hcw, hc1, hc2⟩ := dumps_cons x
          have hneed2 : needI (x :: t) ≤ f := by
            simp only [needV] at hneed
            omega
          have hs : pre ++ dumps (Json.arr (x :: t)) ++ rest
              = pre ++ ('[' :: (dumpsArr (x :: t) ++ ']' :: rest)) := by
            simp [dumps]
          rw [hs]
          simp only [parse]
          rw [skipWs_append_ws hpre]
          have hskip2 : skipWs (dumpsArr (x :: t) ++ ']' :: rest)
              = c :: (ct ++ (sepFor t ++ dumpsArr t) ++ ']' :: rest) := by
            have harr : dumpsArr (x :: t) ++ ']' :: rest
                = c :: (ct ++ (sepFor t ++ dumpsArr t) ++ ']' :: rest) := by
              simp [dumpsArr, hdx]
            rw [harr, skipWs_cons_not_ws hcw]
          have happ := ihA (x :: t) [] [] rest (by simp) hneed2 wsOnly_nil hrest
          simp only [List.nil_append] at happ
          simp [skipWs, isWs, hskip2, hc1, happ]
      | obj kvs =>
        cases kvs with
        | nil =>
          have hs : pre ++ dumps (Json.obj []) ++ rest = pre ++ ('{' :: '}' :: rest) := by
            simp [dumps, dumpsObj]
          rw [hs]
          simp only [parse]
          rw [skipWs_append_ws hpre]
          simp [skipWs, isWs]
        | cons kv t =>
          have hneed2 : needO (kv :: t) ≤ f := by
            simp only [needV] at hneed
            omega
          have hs : pre ++ dumps (Json.obj (kv :: t)) ++ rest
              = pre ++ ('{' :: (dumpsObj (kv :: t) ++ '}' :: rest)) := by
            simp [dumps]
          rw [hs]
          simp only [parse]
          rw [skipWs_append_ws hpre]
          have hskip2 : skipWs (dumpsObj (kv :: t) ++ '}' :: rest)
              = '"' :: ((escape kv.1.data ++ ['"', ':', ' ']) ++ dumps kv.2
                  ++ (sepFor t ++ dumpsObj t) ++ '}' :: rest) := by
            have hobj : dumpsObj (kv :: t) ++ '}' :: rest
                = '"' :: ((escape kv.1.data ++ ['"', ':', ' ']) ++ dumps kv.2
                    ++ (sepFor t ++ dumpsObj t) ++ '}' :: rest) := by
              simp [dumpsObj]
            rw [hobj, skipWs_cons_not_ws (by decide : isWs '"' = false)]
          have happ := ihO (kv :: t) [] [] rest (by simp) hneed2 wsOnly_nil hrest
          simp only [List.nil_append] at happ
          simp [skipWs, isWs, hskip2, happ]
    · intro xs acc pre rest hne hneed hpre hrest
      cases xs with
      | nil => exact absurd rfl hne
      | cons x t =>
        have hneedx : needV x ≤ f := by
          simp only [needI] at hneed
          omega
        have hneedt : needI t ≤ f := by
          simp only [needI] at hneed
          omega
        have hs : pre ++ (dumpsArr (x :: t) ++ ']' :: rest)
            = pre ++ dumps x ++ (sepFor t ++ (dumpsArr t ++ ']' :: rest)) := by
          simp [dumpsArr]
        have hdel2 : delimOk (sepFor t ++ (dumpsArr t ++ ']' :: rest)) = true := by
          cases t with
          | nil =>
            simp only [sepFor, dumpsArr, List.nil_append, delimOk]
            decide
          | cons y t2 =>
            simp only [sepFor, List.cons_append, delimOk]
            decide
        have hV := ihV x pre (sepFor t ++ (dumpsArr t ++ ']' :: rest)) hneedx hpre hdel2
        rw [hs]
        simp only [parse]
        rw [hV]
        cases t with
        | nil =>
          simp [sepFor, dumpsArr, skipWs, isWs]
        | cons y t2 =>
          have happ := ihA (y :: t2) (acc ++ [x]) [' '] rest (by simp) hneedt wsOnly_space hrest
          simp only [List.singleton_append] at happ
          simp [sepFor, skipWs, isWs, happ]

    · intro kvs acc pre rest hne hneed hpre hrest
      cases kvs with
      | nil => exact absurd rfl hne
      | cons kv t =>
        obtain ⟨k, v⟩ := kv
        have hneedv : needV v ≤ f := by
          simp only [needO] at hneed
          omega
        have hneedt : needO t ≤ f := by
          simp only [needO] at hneed
          omega
        have hs : pre ++ (dumpsObj ((k, v) :: t) ++ '}' :: rest)
            = pre ++ ('"' :: (escape k.data
                ++ '"' :: ':' :: ' ' :: (dumps v ++ (sepFor t ++ (dumpsObj t ++ '}' :: rest))))) := by
          simp [dumpsObj]
        have hdel2 : delimOk (sepFor t ++ (dumpsObj t ++ '}' :: rest)) = true := by
          cases t with
          | nil =>
            simp only [sepFor, dumpsObj, List.nil_append, delimOk]
            decide
          | cons kv2 t2 =>
            simp only [sepFor, List.cons_append, delimOk]
            decide
        have hV : parse f .val (' ' :: (dumps v ++ (sepFor t ++ (dumpsObj t ++ '}' :: rest))))
            = some (v, sepFor t ++ (dumpsObj t ++ '}' :: rest)) := by
          have h := ihV v [' '] (sepFor t ++ (dumpsObj t ++ '}' :: rest)) hneedv wsOnly_space hdel2
          simpa using h
        rw [hs]
        simp only [parse]
        rw [skipWs_append_ws hpre]
        have hstr := parseStrBody_escape k.data
          (':' :: ' ' :: (dumps v ++ (sepFor t ++ (dumpsObj t ++ '}' :: rest))))
        cases t with
        | nil =>
          simp only [sepFor, dumpsObj, List.nil_append] at hV hstr
          simp [skipWs, isWs, sepFor, dumpsObj, hstr, hV, mk_data]
        | cons kv2 t2 =>
          have happ := ihO (kv2 :: t2) (acc ++ [(k, v)]) [' '] rest (by simp) hneedt
            wsOnly_space hrest
          simp only [List.singleton_append] at happ
          simp only [sepFor, List.cons_append, List.nil_append] at hV hstr
          simp [skipWs, isWs, sepFor, hstr, hV, mk_data, happ]

/-- Top-level round trip: `json.loads` of `json.dumps` returns the value
unchanged. -/
theorem loads_dumps (v : Json) : loads (dumpsStr v) = some v := by
  have hb : needV v ≤ 2 * (dumps v).length + 2 := by
    have := needV_le_dumps v
    omega
  have h := (parse_dumps_all (2 * (dumps v).length + 2)).1 v [] [] hb wsOnly_nil rfl
  simp only [List.nil_append, List.append_nil] at h
  have hd : (String.mk (dumps v)).data = dumps v := rfl
  unfold loads dumpsStr
  rw [hd, h]
  simp [skipWs, isWs]

/-! ## Claim theorems -/

/-- C1: for every image that decodes successfully, the Chart Gate returns
true if and only if the probabilistic line detector finds a non-empty set
of line segments whose count strictly exceeds 20 (so in particular any
image with at most 20 detected segments is rejected). -/
theorem chart_gate_true_iff_over_twenty_lines (cv : CV) (path : String)
    (img : GrayImage) (h : cv.imread path = some img) :
    is_trading_chart cv path = true ↔
      ∃ lines, cv.houghLinesP (cv.canny img 50 150 3) ⟨1, 180, 100, 100, 10⟩ = some lines ∧
        lines ≠ [] ∧ 20 < lines.length := by
  unfold is_trading_chart
  rw [h]
  cases hl : cv.houghLinesP (cv.canny img 50 150 3) ⟨1, 180, 100, 100, 10⟩ with
  | none => simp [hl]
  | some lines =>
    simp only [hl, decide_eq_true_eq, Option.some.injEq]
    constructor
    · intro h20
      exact ⟨lines, rfl, by rintro rfl; simp at h20, h20⟩
    · rintro ⟨l, rfl, _, h20⟩
      exact h20

/-- C1 witness: a decoded image with 25 detected segments passes the
gate. -/
theorem chart_gate_true_iff_over_twenty_lines_spot :
    is_trading_chart cvChart "uploads/img.png" = true :=
  (chart_gate_true_iff_over_twenty_lines cvChart "uploads/img.png" img0 rfl).mpr
    ⟨List.replicate 25 seg0, rfl, by simp, by simp⟩

/-- C2: when the decoder yields nothing, the Chart Gate returns false
(the model's totality reflects that no code path raises). -/
theorem chart_gate_unreadable_false (cv : CV) (path : String)
    (h : cv.imread path = none) : is_trading_chart cv path = false := by
  unfold is_trading_chart
  rw [h]

/-- C2 witness: an undecodable upload is rejected. -/
theorem chart_gate_unreadable_false_spot :
    is_trading_chart cvUnreadable "uploads/img.png" = false :=
  chart_gate_unreadable_false cvUnreadable "uploads/img.png" rfl

/-- C4 (amended): the helper Analysis Requestor
(`utils/gemini_helper.py`, the one the routers call) raises
`HTTPException(502)` whose detail carries the upstream body for every
non-200 status, returning no result. -/
theorem helper_non200_gateway_502_with_body (resp : UpstreamResp) (tf : String)
    (h : resp.status ≠ 200) :
    analyze_image_with_gemini resp tf =
      .error (.httpException 502 ("AI API error: " ++ resp.text)) := by
  unfold analyze_image_with_gemini
  simp [h]

/-- C4 witness: a 404 reply raises the 502 gateway error with the body
attached. -/
theorem helper_non200_gateway_502_with_body_spot :
    analyze_image_with_gemini resp404 "H1" =
      .error (.httpException 502 ("AI API error: " ++ resp404.text)) :=
  helper_non200_gateway_502_with_body resp404 "H1" (by decide)

/-- C4 counterexample: the `app.py` variant of `analyze_image_with_gemini`
(also cited by the claim) uses `raise_for_status`, so a non-200 success
status such as 201 raises nothing and a parsed result is returned. -/
theorem app_requestor_non200_returns_result :
    resp201.status ≠ 200 ∧ analyze_image_with_gemini_app resp201 = .ok Json.null :=
  ⟨by decide, rfl⟩

/-- C9: the poller's failing input — one well-formed fetched alert.
`sync_alerts_from_remote` validates it and returns it, but binds it to a
function-local `alerts` list; `_periodic_alert_sync` discards the return
value, so the shared list read by the handlers (empty here) is never
replaced — on no input does a tick change it. -/
theorem poller_never_updates_shared_alerts :
    (sync_alerts_from_remote ⟨[]⟩ [alertPayloadItem]).2 = [alert0] ∧
    [alert0] ≠ ([] : List PriceAlert) ∧
    (periodic_alert_sync_tick ⟨[]⟩ [alertPayloadItem]).routerAlerts = [] ∧
    ∀ (st : AlertsState) (payload : List Json), periodic_alert_sync_tick st payload = st :=
  ⟨rfl, by decide, rfl, fun _ _ => rfl⟩

/-- C10: the persisted analysis blob round-trips — for every dict value,
reading back `process_bind_param`'s serialization returns the value
unchanged, and both directions map `None` to `None`. -/
theorem jsonEncodedDict_roundtrip :
    (∀ kvs : List (String × Json),
      JSONEncodedDict.process_result_value
          (JSONEncodedDict.process_bind_param (some (Json.obj kvs))) =
        .ok (some (Json.obj kvs))) ∧
    JSONEncodedDict.process_bind_param none = none ∧
    JSONEncodedDict.process_result_value none = .ok none := by
  refine ⟨?_, rfl, rfl⟩
  intro kvs
  simp [JSONEncodedDict.process_bind_param, JSONEncodedDict.process_result_value,
    loads_dumps]


/-- Errors of a Python subscript with a string key. -/
theorem pyKey_error {j : Json} {k : String} {e : PyError}
    (h : pyKey j k = .error e) : e = .keyError ∨ e = .typeError := by
  cases j with
  | obj kvs =>
    cases hl : jLookup kvs k with
    | some v => simp [pyKey, hl] at h
    | none =>
      simp only [pyKey, hl, Except.error.injEq] at h
      exact Or.inl h.symm
  | null => simp only [pyKey, Except.error.injEq] at h; exact Or.inr h.symm
  | bool b => simp only [pyKey, Except.error.injEq] at h; exact Or.inr h.symm
  | num n => simp only [pyKey, Except.error.injEq] at h; exact Or.inr h.symm
  | str s => simp only [pyKey, Except.error.injEq] at h; exact Or.inr h.symm
  | arr xs => simp only [pyKey, Except.error.injEq] at h; exact Or.inr h.symm

/-- Errors of a Python subscript with an integer index. -/
theorem pyIdx_error {j : Json} {i : Nat} {e : PyError}
    (h : pyIdx j i = .error e) :
    e = .keyError ∨ e = .indexError ∨ e = .typeError := by
  cases j with
  | arr xs =>
    cases hx : xs[i]? with
    | some v => simp [pyIdx, hx] at h
    | none =>
      simp only [pyIdx, hx, Except.error.injEq] at h
      exact Or.inr (Or.inl h.symm)
  | str s =>
    cases hx : s.data[i]? with
    | some c => simp [pyIdx, hx] at h
    | none =>
      simp only [pyIdx, hx, Except.error.injEq] at h
      exact Or.inr (Or.inl h.symm)
  | obj kvs => simp only [pyIdx, Except.error.injEq] at h; exact Or.inl h.symm
  | null => simp only [pyIdx, Except.error.injEq] at h; exact Or.inr (Or.inr h.symm)
  | bool b => simp only [pyIdx, Except.error.injEq] at h; exact Or.inr (Or.inr h.symm)
  | num n => simp only [pyIdx, Except.error.injEq] at h; exact Or.inr (Or.inr h.symm)

/-- Error propagation through one `Except` bind. -/
theorem bind_error_cases {α β : Type} {m : Except PyError α}
    {f : α → Except PyError β} {e : PyError} (P : PyError → Prop)
    (h : (m >>= f) = .error e)
    (hm : ∀ e1, m = .error e1 → P e1)
    (hf : ∀ a, f a = .error e → P e) : P e := by
  cases hm2 : m with
  | error e1 =>
    rw [hm2] at h
    simp only [bind, Except.bind, Except.error.injEq] at h
    exact h ▸ hm e1 hm2
  | ok a =>
    rw [hm2] at h
    simp only [bind, Except.bind] at h
    exact hf a h

/-- The envelope walk can only fail with `KeyError`, `IndexError` or
`TypeError`. -/
theorem extractCandidateText_error {raw : Json} {e : PyError}
    (h : extractCandidateText raw = .error e) :
    e = .keyError ∨ e = .indexError ∨ e = .typeError := by
  unfold extractCandidateText at h
  refine bind_error_cases
    (fun x => x = PyError.keyError ∨ x = PyError.indexError ∨ x = PyError.typeError)
    h (fun e1 h1 => ?_) (fun c h1 => ?_)
  · rcases pyKey_error h1 with h2 | h2 <;> simp [h2]
  · refine bind_error_cases
      (fun x => x = PyError.keyError ∨ x = PyError.indexError ∨ x = PyError.typeError)
      h1 (fun e1 h2 => ?_) (fun c0 h2 => ?_)
    · exact pyIdx_error h2
    · refine bind_error_cases
        (fun x => x = PyError.keyError ∨ x = PyError.indexError ∨ x = PyError.typeError)
        h2 (fun e1 h3 => ?_) (fun ct h3 => ?_)
      · rcases pyKey_error h3 with h4 | h4 <;> simp [h4]
      · refine bind_error_cases
          (fun x => x = PyError.keyError ∨ x = PyError.indexError ∨ x = PyError.typeError)
          h3 (fun e1 h4 => ?_) (fun ps h4 => ?_)
        · rcases pyKey_error h4 with h5 | h5 <;> simp [h5]
        · refine bind_error_cases
            (fun x => x = PyError.keyError ∨ x = PyError.indexError ∨ x = PyError.typeError)
            h4 (fun e1 h5 => ?_) (fun p0 h5 => ?_)
          · exact pyIdx_error h5
          · rcases pyKey_error h5 with h6 | h6 <;> simp [h6]

/-- C5: on a 200 reply, the helper Analysis Requestor only fails with a
parse-side error (never the 502 gateway error), and the `app.py` variant
only fails with its parse 500 or an uncaught `TypeError` — in both
variants the error is distinguishable from the gateway error. -/
theorem parse_error_distinct_from_gateway (resp : UpstreamResp) (tf : String)
    (h200 : resp.status = 200) :
    (∀ e, analyze_image_with_gemini resp tf = .error e →
      isParsePyError e = true ∧ isGatewayError e = false) ∧
    (∀ e, analyze_image_with_gemini_app resp = .error e →
      (e = .httpException 500 appParseFailureDetail ∨ e = .typeError) ∧
        isGatewayError e = false) := by
  constructor
  · intro e h
    unfold analyze_image_with_gemini at h
    rw [h200] at h
    rw [if_neg (by omega : ¬(200 : Nat) ≠ 200)] at h
    cases hl : loads resp.text with
    | none =>
      simp only [hl, Except.error.injEq] at h
      subst h
      exact ⟨rfl, rfl⟩
    | some raw =>
      simp only [hl] at h
      cases hx : extractCandidateText raw with
      | error e2 =>
        rcases extractCandidateText_error hx with h3 | h3 | h3 <;> subst h3 <;>
          simp only [hx, Except.error.injEq] at h <;> subst h <;> exact ⟨rfl, rfl⟩
      | ok j =>
        simp only [hx] at h
        cases j with
        | str s =>
          cases hs : loads s with
          | some v => simp [hs] at h
          | none =>
            simp only [hs, Except.error.injEq] at h
            subst h
            exact ⟨rfl, rfl⟩
        | null => simp only [Except.error.injEq] at h; subst h; exact ⟨rfl, rfl⟩
        | bool b => simp only [Except.error.injEq] at h; subst h; exact ⟨rfl, rfl⟩
        | num n => simp only [Except.error.injEq] at h; subst h; exact ⟨rfl, rfl⟩
        | arr xs => simp only [Except.error.injEq] at h; subst h; exact ⟨rfl, rfl⟩
        | obj kvs => simp only [Except.error.injEq] at h; subst h; exact ⟨rfl, rfl⟩
  · intro e h
    unfold analyze_image_with_gemini_app at h
    rw [h200] at h
    rw [if_neg (by omega : ¬((400 : Nat) ≤ 200 ∧ (200 : Nat) < 600))] at h
    cases hl : loads resp.text with
    | none =>
      simp only [hl, Except.error.injEq] at h
      subst h
      exact ⟨Or.inl rfl, by decide⟩
    | some raw =>
      simp only [hl] at h
      cases hx : extractCandidateText raw with
      | error e2 =>
        rcases extractCandidateText_error hx with h3 | h3 | h3 <;> subst h3 <;>
          simp only [hx, Except.error.injEq] at h <;> subst h
        · exact ⟨Or.inl rfl, by decide⟩
        · exact ⟨Or.inl rfl, by decide⟩
        · exact ⟨Or.inr rfl, by decide⟩
      | ok j =>
        simp only [hx] at h
        cases j with
        | str s =>
          cases hs : loads s with
          | some v => simp [hs] at h
          | none =>
            simp only [hs, Except.error.injEq] at h
            subst h
            exact ⟨Or.inl rfl, by decide⟩
        | null => simp only [Except.error.injEq] at h; subst h; exact ⟨Or.inr rfl, by decide⟩
        | bool b => simp only [Except.error.injEq] at h; subst h; exact ⟨Or.inr rfl, by decide⟩
        | num n => simp only [Except.error.injEq] at h; subst h; exact ⟨Or.inr rfl, by decide⟩
        | arr xs => simp only [Except.error.injEq] at h; subst h; exact ⟨Or.inr rfl, by decide⟩
        | obj kvs => simp only [Except.error.injEq] at h; subst h; exact ⟨Or.inr rfl, by decide⟩

/-- C5 witness: a 200 reply whose body is not JSON fails with
`json.JSONDecodeError`, a parse error distinct from the gateway error. -/
theorem parse_error_distinct_from_gateway_spot :
    isParsePyError PyError.jsonDecodeError = true ∧
      isGatewayError PyError.jsonDecodeError = false :=
  (parse_error_distinct_from_gateway resp200Bad "H1" rfl).1 PyError.jsonDecodeError rfl

/-- C3 (amended): in the scalp and swing routers, a gate-rejected image
yields `HTTPException(400, ...)` and the Gemini call never happens. -/
theorem router_gate_reject_400_no_upstream (ctx : ReqCtx) (tf : String)
    (h : is_trading_chart ctx.cv ctx.path = false) :
    (scalp_analyze_chart ctx tf).1 =
        .error (.httpException 400 "Please upload a valid trading chart image.") ∧
      Effect.geminiCall ∉ (scalp_analyze_chart ctx tf).2 ∧
      (swing_analyze_chart ctx tf).1 =
        .error (.httpException 400 "Please upload a valid trading chart image.") ∧
      Effect.geminiCall ∉ (swing_analyze_chart ctx tf).2 := by
  unfold scalp_analyze_chart swing_analyze_chart
  simp [h]

/-- C3 witness: a concrete gate-rejected request makes no Gemini call in
either router. -/
theorem router_gate_reject_400_no_upstream_spot :
    Effect.geminiCall ∉ (scalp_analyze_chart ctxGateFalse "M1").2 ∧
      Effect.geminiCall ∉ (swing_analyze_chart ctxGateFalse "H1").2 :=
  ⟨(router_gate_reject_400_no_upstream ctxGateFalse "M1" rfl).2.1,
   (router_gate_reject_400_no_upstream ctxGateFalse "H1" rfl).2.2.2⟩

/-- C3 counterexample: `app.py`'s analyze-chart endpoint (also cited by
the claim) runs no Chart Gate at all — on an upload the gate would
reject, it still performs the upstream call and does not answer 400. -/
theorem app_endpoint_calls_upstream_without_gate :
    is_trading_chart cvFewLines appCtx0.path = false ∧
    Effect.geminiCall ∈ (analyze_chart_endpoint appCtx0).2 ∧
    (analyze_chart_endpoint appCtx0).1 ≠
      .error (.httpException 400 "Please upload a valid trading chart image.") := by
  have htrace : (analyze_chart_endpoint appCtx0).2 =
      [.saveFile "uploads/img.png", .geminiCall, .removeFile "uploads/img.png"] := rfl
  have hres : (analyze_chart_endpoint appCtx0).1 =
      .error (.httpException 502
        ("Error communicating with the AI API: " ++ raise_for_status_message resp404)) := rfl
  refine ⟨rfl, ?_, ?_⟩
  · rw [htrace]; simp
  · rw [hres]; simp

/-- C6: the failing input `timeframe="X9"` — outside both routers'
advertised `enum` sets — is not rejected: FastAPI treats `enum=` as
OpenAPI documentation only, the parameter is a plain `str`, and the full
pipeline (gate, then Gemini call) runs with the out-of-set value. -/
theorem timeframe_enum_documented_not_enforced :
    "X9" ∉ scalpTimeframes ∧
    "X9" ∉ swingTimeframes ∧
    scalp_route ctxGateTrue "X9" = scalp_analyze_chart ctxGateTrue "X9" ∧
    Effect.geminiCall ∈ (scalp_route ctxGateTrue "X9").2 ∧
    swing_route ctxGateTrue "X9" = swing_analyze_chart ctxGateTrue "X9" ∧
    Effect.geminiCall ∈ (swing_route ctxGateTrue "X9").2 := by
  have ht1 : (scalp_route ctxGateTrue "X9").2 =
      [.saveFile "uploads/img.png", .geminiCall, .removeFile "uploads/img.png"] := rfl
  have ht2 : (swing_route ctxGateTrue "X9").2 =
      [.saveFile "uploads/img.png", .geminiCall, .removeFile "uploads/img.png"] := rfl
  refine ⟨by decide, by decide, rfl, ?_, rfl, ?_⟩
  · rw [ht1]; simp
  · rw [ht2]; simp

/-- C7: the pipeline is all-or-nothing — in both routers the trace's
history inserts are exactly one row holding the returned blob when the
Analysis Requestor succeeds, and none on any failure. -/
theorem history_insert_all_or_nothing (ctx : ReqCtx) (tf : String) :
    (scalp_analyze_chart ctx tf).2.filter isDbAdd =
        dbAddsOf (scalp_analyze_chart ctx tf).1 ∧
      (swing_analyze_chart ctx tf).2.filter isDbAdd =
        dbAddsOf (swing_analyze_chart ctx tf).1 := by
  constructor
  · unfold scalp_analyze_chart
    by_cases hg : is_trading_chart ctx.cv ctx.path
    · cases ha : analyze_image_with_gemini ctx.upstream tf with
      | ok r => simp [hg, ha, isDbAdd, dbAddsOf, List.filter]
      | error e => simp [hg, ha, isDbAdd, dbAddsOf, List.filter]
    · simp [hg, isDbAdd, dbAddsOf, List.filter]
  · unfold swing_analyze_chart
    by_cases hg : is_trading_chart ctx.cv ctx.path
    · cases ha : analyze_image_with_gemini ctx.upstream tf with
      | ok r => simp [hg, ha, isDbAdd, dbAddsOf, List.filter]
      | error e => simp [hg, ha, isDbAdd, dbAddsOf, List.filter]
    · simp [hg, isDbAdd, dbAddsOf, List.filter]

/-- C8: whenever a handler saves the upload, the same trace also deletes
it — unconditionally in both routers, and in `app.py` whenever the save
succeeded (when it fails nothing is saved). -/
theorem upload_removed_in_every_path (ctx : ReqCtx) (tf : String) (actx : AppReqCtx) :
    (Effect.saveFile ctx.path ∈ (scalp_analyze_chart ctx tf).2 ∧
      Effect.removeFile ctx.path ∈ (scalp_analyze_chart ctx tf).2) ∧
    (Effect.saveFile ctx.path ∈ (swing_analyze_chart ctx tf).2 ∧
      Effect.removeFile ctx.path ∈ (swing_analyze_chart ctx tf).2) ∧
    (Effect.saveFile actx.path ∈ (analyze_chart_endpoint actx).2 →
      Effect.removeFile actx.path ∈ (analyze_chart_endpoint actx).2) := by
  refine ⟨?_, ?_, ?_⟩
  · unfold scalp_analyze_chart
    by_cases hg : is_trading_chart ctx.cv ctx.path
    · cases ha : analyze_image_with_gemini ctx.upstream tf <;> simp [hg, ha]
    · simp [hg]
  · unfold swing_analyze_chart
    by_cases hg : is_trading_chart ctx.cv ctx.path
    · cases ha : analyze_image_with_gemini ctx.upstream tf <;> simp [hg, ha]
    · simp [hg]
  · unfold analyze_chart_endpoint
    by_cases hs : actx.saveOk
    · cases ha : analyze_image_with_gemini_app actx.upstream <;> simp [hs, ha]
    · simp [hs]

/-- C8 witness: for a concrete `app.py` request whose save succeeded, the
saved file is deleted. -/
theorem upload_removed_in_every_path_spot :
    Effect.removeFile "uploads/img.png" ∈ (analyze_chart_endpoint appCtx0).2 := by
  have htrace : (analyze_chart_endpoint appCtx0).2 =
      [.saveFile "uploads/img.png", .geminiCall, .removeFile "uploads/img.png"] := rfl
  have h := (upload_removed_in_every_path ctxGateTrue "M1" appCtx0).2.2
  have hsave : Effect.saveFile appCtx0.path ∈ (analyze_chart_endpoint appCtx0).2 := by
    rw [htrace]
    simp [appCtx0]
  exact h hsave


end YoForex
